import Mathlib

/-!
Verification of the `env-sync` tool (`src/main.go`), a command-line utility
that copies CI/CD environment variables from one GitLab project to another.

The embedding is shallow: HTTP traffic is modelled by a `World` that supplies
the outcome of each network request (a transport failure or a status code plus
a structured body), file output and log output are recorded as data in a
`RunResult`, and the functions `GetVariables`, `CreateVariable` and `main`
(here `runMain`) are translated line by line from the Go source.  Response and
request bodies are modelled at the JSON-value level (`Json`); the byte-level
JSON grammar belongs to the Go standard library.  `url.PathEscape` and
`url.PathUnescape` from the standard library are modelled at the byte level,
following their implementations.
-/

namespace EnvSync

/-! ### JSON values

Bodies of requests and responses are structured JSON values.  This mirrors
`encoding/json`: a value is null, a boolean, a number, a string, an array or
an object (a sequence of key/value members, order and duplicates kept). -/

inductive Json where
  | null
  | bool (b : Bool)
  | num (n : Int)
  | str (s : String)
  | arr (elems : List Json)
  | obj (members : List (String × Json))
deriving Repr, BEq

/-- Escape of one character inside a rendered JSON string (quote and
backslash only; enough for the raw-body error messages). -/
def escChar : Char → String
  | '"' => "\\\""
  | '\\' => "\\\\"
  | c => String.singleton c

/-- Render of a JSON string literal, with quotes. -/
def renderStr (s : String) : String :=
  "\"" ++ s.data.foldl (fun acc c => acc ++ escChar c) "" ++ "\""

mutual

/-- Compact textual rendering of a JSON value, standing in for the raw
response bytes (`string(bodyBytes)` in the Go source). -/
def Json.render : Json → String
  | .null => "null"
  | .bool true => "true"
  | .bool false => "false"
  | .num n => toString n
  | .str s => renderStr s
  | .arr es => "[" ++ Json.renderElems es ++ "]"
  | .obj ms => "\x7b" ++ Json.renderMembers ms ++ "\x7d"

/-- Rendering of the comma-separated elements of a JSON array. -/
def Json.renderElems : List Json → String
  | [] => ""
  | [e] => e.render
  | e :: es => e.render ++ "," ++ Json.renderElems es

/-- Rendering of the comma-separated members of a JSON object. -/
def Json.renderMembers : List (String × Json) → String
  | [] => ""
  | [(k, v)] => renderStr k ++ ":" ++ v.render
  | (k, v) :: ms => renderStr k ++ ":" ++ v.render ++ "," ++ Json.renderMembers ms

end

/-! ### The EnvVar record (`src/main.go` lines 16-23)

Field names and json tags follow the Go struct declaration. -/

structure EnvVar where
  VariableType : String
  Key : String
  Value : String
  Protected : Bool
  Masked : Bool
  EnvironmentScope : String
deriving Repr, DecidableEq

/-- The zero value of the Go struct `EnvVar` (all strings empty, booleans
false), produced by `var v EnvVar` before decoding assigns fields. -/
def EnvVar.zero : EnvVar := ⟨"", "", "", false, false, ""⟩

/-- Marshalling of one `EnvVar`, as `json.Marshal` produces it: an object
with the six tagged fields in struct declaration order. -/
def encodeEnvVar (v : EnvVar) : Json :=
  .obj [("variable_type", .str v.VariableType),
        ("key", .str v.Key),
        ("value", .str v.Value),
        ("protected", .bool v.Protected),
        ("masked", .bool v.Masked),
        ("environment_scope", .str v.EnvironmentScope)]

/-- ASCII lower-casing of one character (the json tags here are ASCII, so
this agrees with the case folding `encoding/json` applies). -/
def lowerChar (c : Char) : Char :=
  if 65 ≤ c.toNat ∧ c.toNat ≤ 90 then Char.ofNat (c.toNat + 32) else c

/-- ASCII lower-casing of a string. -/
def lowerStr (s : String) : String :=
  String.mk (s.data.map lowerChar)

/-- Key matching used by `encoding/json` when filling a struct field from an
object member: an exact tag match, or a case-insensitive one. -/
def keyMatches (tag k : String) : Bool :=
  tag == k || lowerStr tag == lowerStr k

/-- The value assigned to the struct field with json tag `tag`: the decoder
walks the object members in order and a later matching member overwrites an
earlier one, so the last match wins. -/
def lastMatch (ms : List (String × Json)) (tag : String) : Option Json :=
  ms.foldl (fun acc kv => if keyMatches tag kv.1 then some kv.2 else acc) none

/-- Decoding of a string-typed struct field: a missing member or a JSON null
leaves the zero value `""`; a JSON string assigns it; any other JSON type is
an unmarshalling type error. -/
def getStringField (ms : List (String × Json)) (tag : String) : Option String :=
  match lastMatch ms tag with
  | none => some ""
  | some .null => some ""
  | some (.str s) => some s
  | some _ => none

/-- Decoding of a boolean-typed struct field, analogous to
`getStringField`. -/
def getBoolField (ms : List (String × Json)) (tag : String) : Option Bool :=
  match lastMatch ms tag with
  | none => some false
  | some .null => some false
  | some (.bool b) => some b
  | some _ => none

/-- Unmarshalling of one `EnvVar` from a JSON value, as `encoding/json` fills
the struct: the value must be an object (null is a no-op leaving the zero
struct); each tagged field is assigned from the matching member. -/
def decodeEnvVar : Json → Option EnvVar
  | .null => some EnvVar.zero
  | .obj ms => do
      let vt ← getStringField ms "variable_type"
      let k ← getStringField ms "key"
      let v ← getStringField ms "value"
      let p ← getBoolField ms "protected"
      let m ← getBoolField ms "masked"
      let es ← getStringField ms "environment_scope"
      pure ⟨vt, k, v, p, m, es⟩
  | _ => none

/-- Unmarshalling of a `[]EnvVar`, as `json.Decoder.Decode(&variables)` does:
the body must be a JSON array (null leaves the nil slice) and every element
must decode as an `EnvVar`. -/
def decodeEnvVarList : Json → Option (List EnvVar)
  | .null => some []
  | .arr es => es.mapM decodeEnvVar
  | _ => none

/-! ### Percent-encoding of path segments

Model of `url.PathEscape` and `url.PathUnescape` from `net/url`, which the
source applies to project paths (`src/main.go` lines 54 and 90).  Go strings
are byte sequences, so these work on lists of bytes (`Nat` below 256). -/

/-- Which bytes `url.PathEscape` escapes (`shouldEscape` with mode
`encodePathSegment`): alphanumerics and `-_.~` never; of the RFC 3986
reserved characters listed in its switch, only `/ ; , ?` are escaped;
every other byte is escaped. -/
def shouldEscape (c : Nat) : Bool :=
  if (97 ≤ c ∧ c ≤ 122) ∨ (65 ≤ c ∧ c ≤ 90) ∨ (48 ≤ c ∧ c ≤ 57) then false
  else if c = 45 ∨ c = 95 ∨ c = 46 ∨ c = 126 then false
  else if c = 36 ∨ c = 38 ∨ c = 43 ∨ c = 44 ∨ c = 47 ∨ c = 58 ∨ c = 59 ∨
          c = 61 ∨ c = 63 ∨ c = 64 then
    decide (c = 47 ∨ c = 59 ∨ c = 44 ∨ c = 63)
  else true

/-- The upper-case hex digit character (as a byte) for a value below 16,
matching the `upperhex` table of `net/url`. -/
def hexDigit (d : Nat) : Nat :=
  if d < 10 then 48 + d else 55 + d

/-- Percent-escaping of a byte sequence: an escaped byte `c` becomes
`%`, `upperhex[c>>4]`, `upperhex[c&15]`; all other bytes pass through. -/
def pathEscape : List Nat → List Nat
  | [] => []
  | c :: cs =>
      if shouldEscape c then
        37 :: hexDigit (c / 16) :: hexDigit (c % 16) :: pathEscape cs
      else c :: pathEscape cs

/-- Numeric value of a hex digit byte (upper or lower case), `none` for a
non-hex byte, following `unhex`/`ishex` of `net/url`. -/
def hexVal (c : Nat) : Option Nat :=
  if 48 ≤ c ∧ c ≤ 57 then some (c - 48)
  else if 65 ≤ c ∧ c ≤ 70 then some (c - 55)
  else if 97 ≤ c ∧ c ≤ 102 then some (c - 87)
  else none

mutual

/-- Percent-decoding of a path segment (`url.PathUnescape`): each `%` must be
followed by two hex digits, which decode to one byte; `+` and every other
byte pass through; a malformed escape is an error. -/
def pathUnescape : List Nat → Option (List Nat)
  | [] => some []
  | c :: cs =>
      if c = 37 then unescapePercent cs
      else (pathUnescape cs).map (fun t => c :: t)

/-- Decoding of what follows a `%`: two hex digit bytes giving one decoded
byte, anything else a malformed-escape error. -/
def unescapePercent : List Nat → Option (List Nat)
  | h :: l :: rest =>
      match hexVal h, hexVal l with
      | some hv, some lv => (pathUnescape rest).map (fun t => (16 * hv + lv) :: t)
      | _, _ => none
  | _ => none

end

/-- UTF-8 bytes of a string, for applying the byte-level escaping model to
the path strings of the program. -/
def strBytes (s : String) : List Nat :=
  ((s.data.map String.utf8EncodeChar).flatten).map (fun b => b.toNat)

/-- String-level `url.PathEscape`: escape the UTF-8 bytes; the output bytes
are all ASCII, read back as characters. -/
def pathEscapeStr (s : String) : String :=
  String.mk ((pathEscape (strBytes s)).map Char.ofNat)

/-! ### Network outcomes and the API client (`src/main.go` lines 25-113)

An HTTP request either fails at the transport level (`httpClient.Do` returns
an error) or yields a response with a status code and a body.  The outcome of
each request is supplied by the environment (`World` below); the client code
is deterministic given the outcome. -/

inductive NetOutcome where
  | transportError (msg : String)
  | response (status : Nat) (body : Json)
deriving Repr

/-- Resource path used by both operations:
`fmt.Sprintf("projects/%s/variables", url.PathEscape(projectPath))`. -/
def variablesPath (projectPath : String) : String :=
  "projects/" ++ pathEscapeStr projectPath ++ "/variables"

/-- Errors `GetVariables` can return, one constructor per `return nil, err`
site in the source. -/
inductive GetErr where
  | transport (msg : String)
  | notFound (projectPath : String)
  | requestFailed (status : Nat) (rawBody : String)
  | decodeError
deriving Repr, DecidableEq

/-- Message text of a `GetVariables` error, following the `fmt.Errorf`
format strings of the source. -/
def GetErr.message : GetErr → String
  | .transport m => m
  | .notFound p => "project not found: " ++ p
  | .requestFailed status raw =>
      "failed to get variables: status code " ++ toString status ++ ", response: " ++ raw
  | .decodeError => "json decode error"

/-- Translation of `GetVariables` (`src/main.go` lines 53-83).  The Go
function returns the pair `([]EnvVar, error)`; every failing path returns a
nil slice together with an error, the success path returns the decoded list
and a nil error. -/
def GetVariables (projectPath : String) (outcome : NetOutcome) :
    Option (List EnvVar) × Option GetErr :=
  match outcome with
  | .transportError m => (none, some (.transport m))
  | .response status body =>
      if status = 404 then (none, some (.notFound projectPath))
      else if status ≠ 200 then (none, some (.requestFailed status body.render))
      else
        match decodeEnvVarList body with
        | none => (none, some .decodeError)
        | some vs => (some vs, none)

/-- Errors `CreateVariable` can return (marshalling of an `EnvVar` cannot
fail, so only the transport and non-201 paths remain). -/
inductive CreateErr where
  | transport (msg : String)
  | createFailed (key : String) (status : Nat) (rawBody : String)
deriving Repr, DecidableEq

/-- Message text of a `CreateVariable` error, following the `fmt.Errorf`
format string of the source. -/
def CreateErr.message : CreateErr → String
  | .transport m => m
  | .createFailed key status raw =>
      "failed to create variable " ++ key ++ ": status code " ++ toString status ++
        ", response: " ++ raw

/-- Error result of the POST in `CreateVariable` given the response outcome
(`src/main.go` lines 101-112): transport failure propagates, a status other
than 201 Created is a failure message naming the variable key, 201 is
success. -/
def createErr (v : EnvVar) : NetOutcome → Option CreateErr
  | .transportError m => some (.transport m)
  | .response status body =>
      if status ≠ 201 then some (.createFailed v.Key status body.render) else none

/-- Record of one `CreateVariable` invocation: its arguments, the POST it
issued (`none` when the dry-run short-circuit returned before any request),
and the error it returned. -/
structure CreateCall where
  projectPath : String
  envVar : EnvVar
  dryRun : Bool
  post : Option (String × Json)
  err : Option CreateErr
deriving Repr

/-- Translation of `CreateVariable` (`src/main.go` lines 85-113): with the
dry-run flag it returns nil immediately and issues nothing; otherwise it
marshals the record, POSTs it to the target's variables path, and reports
the outcome. -/
def CreateVariable (projectPath : String) (v : EnvVar) (dryRun : Bool)
    (outcome : NetOutcome) : CreateCall :=
  if dryRun then ⟨projectPath, v, true, none, none⟩
  else
    { projectPath := projectPath
      envVar := v
      dryRun := false
      post := some (variablesPath projectPath, encodeEnvVar v)
      err := createErr v outcome }

/-! ### The sync driver (`src/main.go` lines 136-191)

`main` is modelled as a function of the parsed flag values (`Config`) and of
the environment (`World`): the outcome of the listing request, the outcome of
the i-th creation request, whether the report write succeeds, and the clock
reading used for the report timestamp.  Its observable behaviour is collected
in a `RunResult`. -/

/-- Parsed values of the six command-line flags (`src/main.go` lines
137-144); a flag left at its default is the empty string, `false`, or
`"env-sync-dry-run.json"` respectively. -/
structure Config where
  gitlabURL : String
  token : String
  source : String
  target : String
  dryRun : Bool
  output : String
deriving Repr

/-- The environment of one run: the listing outcome, the outcome of each
creation request (indexed by the order the POSTs are issued), whether
`os.WriteFile` succeeds, and the formatted current time. -/
structure World where
  getOutcome : NetOutcome
  createOutcome : Nat → NetOutcome
  writeOk : Bool
  timestamp : String

/-- The anonymous output struct of `writeDryRunOutput` (`src/main.go` lines
116-126). -/
structure DryRunOutput where
  Timestamp : String
  SourceProject : String
  TargetProject : String
  Variables : List EnvVar
deriving Repr

/-- Marshalling of the dry-run report, with the four tagged fields in
declaration order. -/
def encodeDryRunOutput (o : DryRunOutput) : Json :=
  .obj [("timestamp", .str o.Timestamp),
        ("source_project", .str o.SourceProject),
        ("target_project", .str o.TargetProject),
        ("variables", .arr (o.Variables.map encodeEnvVar))]

/-- Observable behaviour of one run of `main`: whether usage help was
printed, the process exit code, how many listing requests were issued, the
`CreateVariable` invocations in order, the report file written (name and
content) if any, the final `successCount/total` summary line if logged, and
the keys logged by the per-variable failure branch. -/
structure RunResult where
  usagePrinted : Bool
  exitCode : Nat
  getCalls : Nat
  createCalls : List CreateCall
  report : Option (String × DryRunOutput)
  summary : Option (Nat × Nat)
  failLogs : List String
deriving Repr

/-- The live-transfer loop (`src/main.go` lines 181-188): each fetched
variable, in order, is passed to `CreateVariable` with `dryRun=false`; the
i-th issued POST receives outcome `outs i`. -/
def transferAll (target : String) (outs : Nat → NetOutcome) :
    List EnvVar → Nat → List CreateCall
  | [], _ => []
  | v :: vs, i => CreateVariable target v false (outs i) :: transferAll target outs vs (i + 1)

/-- The value of `successCount` after the loop: it is incremented exactly
when a `CreateVariable` call returned nil. -/
def successCount (calls : List CreateCall) : Nat :=
  calls.countP (fun c => c.err.isNone)

/-- The keys logged by `log.Printf("Error transferring variable %s: %v", ...)`:
one per call that returned an error, in order. -/
def failedKeys (calls : List CreateCall) : List String :=
  calls.filterMap (fun c => if c.err.isSome then some c.envVar.Key else none)

/-- Translation of `main` (`src/main.go` lines 136-191).  Flag validation,
then the listing call (`log.Fatalf` exits with code 1), then either the
dry-run report write or the live transfer loop and summary. -/
def runMain (cfg : Config) (w : World) : RunResult :=
  if cfg.gitlabURL = "" ∨ cfg.token = "" ∨ cfg.source = "" ∨ cfg.target = "" then
    ⟨true, 1, 0, [], none, none, []⟩
  else
    let res := GetVariables cfg.source w.getOutcome
    match res.2 with
    | some _ => ⟨false, 1, 1, [], none, none, []⟩
    | none =>
        let sourceVars := res.1.getD []
        if cfg.dryRun then
          if w.writeOk then
            ⟨false, 0, 1, [],
              some (cfg.output, ⟨w.timestamp, cfg.source, cfg.target, sourceVars⟩),
              none, []⟩
          else ⟨false, 1, 1, [], none, none, []⟩
        else
          let calls := transferAll cfg.target w.createOutcome sourceVars 0
          ⟨false, 0, 1, calls, none,
            some (successCount calls, sourceVars.length), failedKeys calls⟩

/-- Whether a creation request outcome makes `CreateVariable` fail: a
transport failure, or any status other than 201 Created. -/
def createFails : NetOutcome → Bool
  | .transportError _ => true
  | .response status _ => decide (status ≠ 201)

/-! ### Helper lemmas -/

theorem createErr_isNone (v : EnvVar) (o : NetOutcome) :
    (createErr v o).isNone = !createFails o := by
  cases o with
  | transportError m => rfl
  | response status body =>
      simp only [createErr, createFails]
      split <;> simp_all

theorem createErr_isSome (v : EnvVar) (o : NetOutcome) :
    (createErr v o).isSome = createFails o := by
  cases o with
  | transportError m => rfl
  | response status body =>
      simp only [createErr, createFails]
      split <;> simp_all

theorem hexVal_hexDigit : ∀ d, d < 16 → hexVal (hexDigit d) = some d := by decide

theorem decode_encode_envVar (v : EnvVar) :
    decodeEnvVar (encodeEnvVar v) = some v := by
  simp +decide [decodeEnvVar, encodeEnvVar, getStringField, getBoolField,
    lastMatch, keyMatches, List.foldl]

/-- Every return of `GetVariables` is either a list with a nil error or a
nil list with an error. -/
theorem getVariables_shape (p : String) (o : NetOutcome) :
    (∃ vs, GetVariables p o = (some vs, none)) ∨
    (∃ e, GetVariables p o = (none, some e)) := by
  cases o with
  | transportError m => exact Or.inr ⟨.transport m, rfl⟩
  | response s b =>
      by_cases h4 : s = 404
      · exact Or.inr ⟨.notFound p, by simp [GetVariables, h4]⟩
      · by_cases h2 : s = 200
        · subst h2
          rcases hd : decodeEnvVarList b with _ | vs
          · exact Or.inr ⟨.decodeError, by simp [GetVariables, h4, hd]⟩
          · exact Or.inl ⟨vs, by simp [GetVariables, h4, hd]⟩
        · exact Or.inr ⟨.requestFailed s b.render, by simp [GetVariables, h4, h2]⟩

/-- When `GetVariables` reports no error, its list is exactly the one the
driver iterates (`res.1.getD []`). -/
theorem getVariables_ok_fst (p : String) (o : NetOutcome)
    (h : (GetVariables p o).2 = none) :
    GetVariables p o = (some ((GetVariables p o).1.getD []), none) := by
  rcases getVariables_shape p o with ⟨vs, hvs⟩ | ⟨e, he⟩
  · rw [hvs]; simp
  · rw [he] at h; simp at h

theorem getVariables_err_fst (p : String) (o : NetOutcome) (e : GetErr)
    (h : (GetVariables p o).2 = some e) : (GetVariables p o).1 = none := by
  rcases getVariables_shape p o with ⟨vs, hvs⟩ | ⟨e2, he⟩
  · rw [hvs] at h; simp at h
  · rw [he]

theorem transferAll_length (t : String) (outs : Nat → NetOutcome) :
    ∀ (vs : List EnvVar) (k : Nat), (transferAll t outs vs k).length = vs.length
  | [], _ => rfl
  | v :: vs, k => by simp [transferAll, transferAll_length t outs vs (k + 1)]

theorem transferAll_map_envVar (t : String) (outs : Nat → NetOutcome) :
    ∀ (vs : List EnvVar) (k : Nat),
      (transferAll t outs vs k).map (fun c => c.envVar) = vs
  | [], _ => rfl
  | v :: vs, k => by
      simp [transferAll, CreateVariable, transferAll_map_envVar t outs vs (k + 1)]

theorem transferAll_mem (t : String) (outs : Nat → NetOutcome) :
    ∀ (vs : List EnvVar) (k : Nat) (c : CreateCall), c ∈ transferAll t outs vs k →
      c.projectPath = t ∧ c.dryRun = false ∧
      c.post = some (variablesPath t, encodeEnvVar c.envVar)
  | [], _, c, hc => by simp [transferAll] at hc
  | v :: vs, k, c, hc => by
      rcases (List.mem_cons).1 hc with hhd | htl
      · subst hhd; simp [CreateVariable]
      · exact transferAll_mem t outs vs (k + 1) c htl

theorem successCount_le_length (calls : List CreateCall) :
    successCount calls ≤ calls.length :=
  List.countP_le_length _

theorem transferAll_all_ok (t : String) (outs : Nat → NetOutcome) :
    ∀ (vs : List EnvVar) (k : Nat),
    (∀ j, k ≤ j → j < k + vs.length → createFails (outs j) = false) →
    successCount (transferAll t outs vs k) = vs.length ∧
    failedKeys (transferAll t outs vs k) = []
  | [], k, _ => by simp [transferAll, successCount, failedKeys]
  | v :: vs, k, h => by
      have hhead : createFails (outs k) = false :=
        h k le_rfl (by simp only [List.length_cons]; omega)
      have ih := transferAll_all_ok t outs vs (k + 1)
        (fun j h1 h2 => h j (by omega) (by simp only [List.length_cons]; omega))
      rw [transferAll]
      constructor
      · have h1 := ih.1
        rw [successCount] at h1 ⊢
        rw [List.countP_cons]
        simp [CreateVariable, createErr_isNone, hhead, h1]
      · have h2 := ih.2
        rw [failedKeys] at h2 ⊢
        rw [List.filterMap_cons]
        simp [CreateVariable, createErr_isSome, hhead, h2]

theorem transferAll_one_fail (t : String) (outs : Nat → NetOutcome) :
    ∀ (vs : List EnvVar) (k i : Nat), k ≤ i → i - k < vs.length →
    createFails (outs i) = true →
    (∀ j, k ≤ j → j < k + vs.length → j ≠ i → createFails (outs j) = false) →
    successCount (transferAll t outs vs k) = vs.length - 1 ∧
    failedKeys (transferAll t outs vs k) = [(vs.getD (i - k) EnvVar.zero).Key]
  | [], k, i, hk, hik, _, _ => by simp at hik
  | v :: vs, k, i, hk, hik, hfail, hothers => by
      by_cases hki : k = i
      · subst hki
        have hall := transferAll_all_ok t outs vs (k + 1)
          (fun j h1 h2 => hothers j (by omega)
            (by simp only [List.length_cons]; omega) (by omega))
        rw [transferAll]
        have hzero : k - k = 0 := by omega
        refine ⟨?_, ?_⟩
        · have h1 := hall.1
          rw [successCount] at h1 ⊢
          rw [List.countP_cons]
          simp [CreateVariable, createErr_isNone, hfail, h1]
        · have h2 := hall.2
          rw [failedKeys] at h2 ⊢
          rw [List.filterMap_cons]
          simp [CreateVariable, createErr_isSome, hfail, h2, hzero]
      · have hlt : k < i := lt_of_le_of_ne hk hki
        have hhead : createFails (outs k) = false :=
          hothers k le_rfl (by simp only [List.length_cons]; omega) hki
        have hik2 : i - (k + 1) < vs.length := by
          simp only [List.length_cons] at hik; omega
        have ih := transferAll_one_fail t outs vs (k + 1) i (by omega) hik2 hfail
          (fun j h1 h2 hne => hothers j (by omega)
            (by simp only [List.length_cons]; omega) hne)
        have hvsl : 0 < vs.length := by omega
        have hidx : i - k = (i - (k + 1)) + 1 := by omega
        rw [transferAll]
        refine ⟨?_, ?_⟩
        · have h1 := ih.1
          rw [successCount] at h1 ⊢
          rw [List.countP_cons]
          simp only [CreateVariable, Bool.false_eq_true, if_false,
            createErr_isNone, hhead, Bool.not_false, if_true, h1]
          simp only [List.length_cons]
          omega
        · have h2 := ih.2
          rw [failedKeys] at h2 ⊢
          rw [List.filterMap_cons]
          simp only [CreateVariable, Bool.false_eq_true, if_false,
            createErr_isSome, hhead]
          rw [hidx, List.getD_cons_succ]
          exact h2

/-! ### The claims -/

/-- Claim C5: JSON-encoding an `EnvironmentVariable` record and decoding the
result yields a record equal to the original in all six fields. -/
theorem envVar_encode_decode_roundtrip (v : EnvVar) :
    decodeEnvVar (encodeEnvVar v) = some v :=
  decode_encode_envVar v

/-- Claim C7: the percent-encoding applied to the path segment placed into
request URLs is invertible: percent-decoding the escaped bytes of any
project path string yields the original exactly. -/
theorem pathEscape_roundtrip (bs : List Nat) (h : ∀ b ∈ bs, b < 256) :
    pathUnescape (pathEscape bs) = some bs := by
  induction bs with
  | nil => rfl
  | cons c cs ih =>
      have hc : c < 256 := h c (by simp)
      have ih2 := ih (fun b hb => h b (List.mem_cons_of_mem _ hb))
      have hdiv : c / 16 < 16 := by omega
      have hmod : c % 16 < 16 := Nat.mod_lt _ (by norm_num)
      by_cases hesc : shouldEscape c
      · rw [pathEscape, if_pos hesc]
        rw [pathUnescape, if_pos rfl, unescapePercent]
        simp [hexVal_hexDigit _ hdiv, hexVal_hexDigit _ hmod, ih2, Nat.div_add_mod]
      · have hne : c ≠ 37 := by
          intro heq; subst heq; exact hesc (by decide)
        rw [pathEscape, if_neg hesc]
        rw [pathUnescape, if_neg hne, ih2]
        rfl

/-- Witness for claim C7 at the bytes of `"group/project"`. -/
theorem pathEscape_roundtrip_witness :
    pathUnescape (pathEscape (strBytes "group/project")) =
      some (strBytes "group/project") :=
  pathEscape_roundtrip (strBytes "group/project") (by decide)

/-- Claim C10: whenever `GetVariables` returns an error, the list it returns
is nil; the caller never sees a partial list alongside an error. -/
theorem getVariables_error_nil_list (p : String) (o : NetOutcome) (e : GetErr)
    (h : (GetVariables p o).2 = some e) : (GetVariables p o).1 = none :=
  getVariables_err_fst p o e h

/-- Witness for claim C10 at a concrete 404 response. -/
theorem getVariables_error_nil_list_witness :
    (GetVariables "group/a" (.response 404 .null)).1 = none :=
  getVariables_error_nil_list "group/a" (.response 404 .null)
    (.notFound "group/a") (by decide)

/-- Claim C8: error taxonomy of the listing call.  A transport failure is
returned as such; a 404 yields a not-found error whose message names the
project path; any other non-200 status yields an error carrying the status
code and the raw response body; a 200 whose body does not decode as a list
of variables yields a decode error; and a 200 with a well-formed body is the
only success. -/
theorem getVariables_error_taxonomy (p m : String) (status : Nat) (b : Json) :
    (GetVariables p (.transportError m) = (none, some (.transport m))) ∧
    (GetVariables p (.response 404 b) = (none, some (.notFound p)) ∧
      (GetErr.notFound p).message = "project not found: " ++ p) ∧
    (status ≠ 404 → status ≠ 200 →
      GetVariables p (.response status b) =
        (none, some (.requestFailed status b.render)) ∧
      (GetErr.requestFailed status b.render).message =
        "failed to get variables: status code " ++ toString status ++
          ", response: " ++ b.render) ∧
    (decodeEnvVarList b = none →
      GetVariables p (.response 200 b) = (none, some .decodeError)) ∧
    (∀ vs, decodeEnvVarList b = some vs →
      GetVariables p (.response 200 b) = (some vs, none)) := by
  refine ⟨rfl, ⟨by simp [GetVariables], rfl⟩, ?_, ?_, ?_⟩
  · intro h4 h2
    exact ⟨by simp [GetVariables, h4, h2], rfl⟩
  · intro hd
    simp [GetVariables, hd]
  · intro vs hd
    simp [GetVariables, hd]

/-- Witness for claim C8 at a concrete 500 response with body `"oops"`. -/
theorem getVariables_error_taxonomy_witness :
    GetVariables "group/a" (.response 500 (.str "oops")) =
      (none, some (.requestFailed 500 (Json.str "oops").render)) ∧
    (GetErr.requestFailed 500 (Json.str "oops").render).message =
      "failed to get variables: status code " ++ toString 500 ++
        ", response: " ++ (Json.str "oops").render :=
  (getVariables_error_taxonomy "group/a" "refused" 500 (.str "oops")).2.2.1
    (by decide) (by decide)

/-- Claim C6: with any of the four required flags left empty, usage text is
printed, the exit status is non-zero, and no network call is made. -/
theorem missing_flag_usage_exit (cfg : Config) (w : World)
    (h : cfg.gitlabURL = "" ∨ cfg.token = "" ∨ cfg.source = "" ∨ cfg.target = "") :
    (runMain cfg w).usagePrinted = true ∧ (runMain cfg w).exitCode ≠ 0 ∧
    (runMain cfg w).getCalls = 0 ∧ (runMain cfg w).createCalls = [] := by
  simp [runMain, h]

/-- Witness for claim C6 with an empty token flag. -/
theorem missing_flag_usage_exit_witness :
    (runMain ⟨"https://gitlab.example.com", "", "group/a", "group/b", false, "out.json"⟩
        ⟨.response 200 (.arr []), fun _ => .response 201 .null, true, "ts"⟩).usagePrinted
      = true ∧
    (runMain ⟨"https://gitlab.example.com", "", "group/a", "group/b", false, "out.json"⟩
        ⟨.response 200 (.arr []), fun _ => .response 201 .null, true, "ts"⟩).exitCode ≠ 0 ∧
    (runMain ⟨"https://gitlab.example.com", "", "group/a", "group/b", false, "out.json"⟩
        ⟨.response 200 (.arr []), fun _ => .response 201 .null, true, "ts"⟩).getCalls = 0 ∧
    (runMain ⟨"https://gitlab.example.com", "", "group/a", "group/b", false, "out.json"⟩
        ⟨.response 200 (.arr []), fun _ => .response 201 .null, true, "ts"⟩).createCalls = [] :=
  missing_flag_usage_exit _ _ (by decide)

/-- Claim C3: when the listing call fails, no report file is written, no
creation call is made, and the process exits non-zero. -/
theorem listing_failure_fatal (cfg : Config) (w : World) (e : GetErr)
    (h : (GetVariables cfg.source w.getOutcome).2 = some e) :
    (runMain cfg w).report = none ∧ (runMain cfg w).createCalls = [] ∧
    (runMain cfg w).exitCode ≠ 0 := by
  by_cases hflags : cfg.gitlabURL = "" ∨ cfg.token = "" ∨ cfg.source = "" ∨ cfg.target = ""
  · simp [runMain, hflags]
  · simp [runMain, hflags, h]

/-- Witness for claim C3 at a concrete transport failure. -/
theorem listing_failure_fatal_witness :
    (runMain ⟨"https://gitlab.example.com", "tok", "group/a", "group/b", false, "out.json"⟩
        ⟨.transportError "refused", fun _ => .response 201 .null, true, "ts"⟩).report = none ∧
    (runMain ⟨"https://gitlab.example.com", "tok", "group/a", "group/b", false, "out.json"⟩
        ⟨.transportError "refused", fun _ => .response 201 .null, true, "ts"⟩).createCalls = [] ∧
    (runMain ⟨"https://gitlab.example.com", "tok", "group/a", "group/b", false, "out.json"⟩
        ⟨.transportError "refused", fun _ => .response 201 .null, true, "ts"⟩).exitCode ≠ 0 :=
  listing_failure_fatal _ _ (.transport "refused") (by decide)

/-- Claim C1: with the dry-run flag set, no creation call is ever issued
(`CreateVariable` is not invoked at all, in particular never with
`dryRun=false`), and any report written holds exactly the variables
returned by `GetVariables`, in the same order. -/
theorem dryRun_no_create_and_report_matches (cfg : Config) (w : World)
    (hdry : cfg.dryRun = true) :
    (runMain cfg w).createCalls = [] ∧
    ∀ fn rep, (runMain cfg w).report = some (fn, rep) →
      (GetVariables cfg.source w.getOutcome).1 = some rep.Variables := by
  by_cases hflags : cfg.gitlabURL = "" ∨ cfg.token = "" ∨ cfg.source = "" ∨ cfg.target = ""
  · simp [runMain, hflags]
  · rcases hsnd : (GetVariables cfg.source w.getOutcome).2 with _ | e
    · rcases hwr : w.writeOk
      · simp [runMain, hflags, hsnd, hdry, hwr]
      · simp only [runMain, hflags, hsnd, hdry, hwr]
        refine ⟨by simp, ?_⟩
        intro fn rep hrep
        simp at hrep
        have hok := getVariables_ok_fst cfg.source w.getOutcome hsnd
        rw [hok]
        simp [← hrep.2]
    · simp [runMain, hflags, hsnd]

/-- Witness for claim C1 at a dry run over a one-variable source project. -/
theorem dryRun_no_create_and_report_matches_witness :
    (runMain ⟨"https://gitlab.example.com", "tok", "group/a", "group/b", true, "out.json"⟩
        ⟨.response 200 (.arr [encodeEnvVar ⟨"env_var", "KEY_ONE", "v1", false, false, "*"⟩]),
          fun _ => .response 201 .null, true, "ts"⟩).createCalls = [] ∧
    ∀ fn rep,
      (runMain ⟨"https://gitlab.example.com", "tok", "group/a", "group/b", true, "out.json"⟩
        ⟨.response 200 (.arr [encodeEnvVar ⟨"env_var", "KEY_ONE", "v1", false, false, "*"⟩]),
          fun _ => .response 201 .null, true, "ts"⟩).report = some (fn, rep) →
      (GetVariables "group/a"
        (.response 200 (.arr [encodeEnvVar ⟨"env_var", "KEY_ONE", "v1", false, false, "*"⟩]))).1
        = some rep.Variables :=
  dryRun_no_create_and_report_matches _ _ rfl

/-- Claim C2: the final summary of a live run reports a success count equal
to the number of creation calls that returned nil, out of a total equal to
the number of variables the listing call returned; the count never exceeds
that total. -/
theorem live_summary_counts (cfg : Config) (w : World) (s n : Nat)
    (h : (runMain cfg w).summary = some (s, n)) :
    s = successCount (runMain cfg w).createCalls ∧
    n = ((GetVariables cfg.source w.getOutcome).1.getD []).length ∧
    s ≤ n := by
  by_cases hflags : cfg.gitlabURL = "" ∨ cfg.token = "" ∨ cfg.source = "" ∨ cfg.target = ""
  · simp [runMain, hflags] at h
  · rcases hsnd : (GetVariables cfg.source w.getOutcome).2 with _ | e
    · rcases hdry : cfg.dryRun
      · simp only [runMain, hflags, hsnd, hdry] at h ⊢
        simp at h
        refine ⟨h.1.symm, h.2.symm, ?_⟩
        rw [← h.1, ← h.2]
        calc successCount (transferAll cfg.target w.createOutcome
                ((GetVariables cfg.source w.getOutcome).1.getD []) 0)
            ≤ (transferAll cfg.target w.createOutcome
                ((GetVariables cfg.source w.getOutcome).1.getD []) 0).length :=
              successCount_le_length _
          _ = ((GetVariables cfg.source w.getOutcome).1.getD []).length :=
              transferAll_length _ _ _ _
      · rcases hwr : w.writeOk <;> simp [runMain, hflags, hsnd, hdry, hwr] at h
    · simp [runMain, hflags, hsnd] at h

/-- Witness for claim C2 at a live run over an empty variable list. -/
theorem live_summary_counts_witness :
    (0 : Nat) = successCount
      (runMain ⟨"https://gitlab.example.com", "tok", "group/a", "group/b", false, "out.json"⟩
        ⟨.response 200 (.arr []), fun _ => .response 201 .null, true, "ts"⟩).createCalls ∧
    (0 : Nat) = ((GetVariables "group/a" (.response 200 (.arr []))).1.getD []).length ∧
    (0 : Nat) ≤ 0 :=
  live_summary_counts _ _ 0 0 (by decide)

/-- Claim C9: in a live run every fetched record is passed to the creation
call verbatim, in order, and the POST body is its encoding; decoding that
body recovers the record in all six fields, so nothing is transformed,
renamed or dropped between source and target. -/
theorem live_transfer_verbatim (cfg : Config) (w : World)
    (hflags : ¬(cfg.gitlabURL = "" ∨ cfg.token = "" ∨ cfg.source = "" ∨ cfg.target = ""))
    (hlive : cfg.dryRun = false) :
    (runMain cfg w).createCalls.map (fun c => c.envVar) =
      (GetVariables cfg.source w.getOutcome).1.getD [] ∧
    ∀ c ∈ (runMain cfg w).createCalls,
      c.projectPath = cfg.target ∧
      c.post = some (variablesPath cfg.target, encodeEnvVar c.envVar) ∧
      decodeEnvVar (encodeEnvVar c.envVar) = some c.envVar := by
  rcases hsnd : (GetVariables cfg.source w.getOutcome).2 with _ | e
  · simp only [runMain, hflags, hsnd, hlive]
    refine ⟨?_, ?_⟩
    · simp [transferAll_map_envVar]
    · intro c hc
      simp at hc
      have hm := transferAll_mem cfg.target w.createOutcome _ _ c hc
      exact ⟨hm.1, hm.1 ▸ hm.2.2, decode_encode_envVar c.envVar⟩
  · have hnone := getVariables_err_fst cfg.source w.getOutcome e hsnd
    simp [runMain, hflags, hsnd, hnone]

/-- Witness for claim C9 at a live run over a one-variable source project. -/
theorem live_transfer_verbatim_witness :
    (runMain ⟨"https://gitlab.example.com", "tok", "group/a", "group/b", false, "out.json"⟩
        ⟨.response 200 (.arr [encodeEnvVar ⟨"env_var", "KEY_ONE", "v1", false, false, "*"⟩]),
          fun _ => .response 201 .null, true, "ts"⟩).createCalls.map (fun c => c.envVar) =
      (GetVariables "group/a"
        (.response 200 (.arr [encodeEnvVar ⟨"env_var", "KEY_ONE", "v1", false, false, "*"⟩]))).1.getD [] ∧
    ∀ c ∈ (runMain ⟨"https://gitlab.example.com", "tok", "group/a", "group/b", false, "out.json"⟩
        ⟨.response 200 (.arr [encodeEnvVar ⟨"env_var", "KEY_ONE", "v1", false, false, "*"⟩]),
          fun _ => .response 201 .null, true, "ts"⟩).createCalls,
      c.projectPath = "group/b" ∧
      c.post = some (variablesPath "group/b", encodeEnvVar c.envVar) ∧
      decodeEnvVar (encodeEnvVar c.envVar) = some c.envVar :=
  live_transfer_verbatim _ _ (by decide) rfl

/-- Claim C4: when exactly one of the N creation calls of a live run fails,
the loop still processes all N variables, that one failure is logged with
the failing variable key, the summary reports N-1 of N successes, and the
exit status is 0. -/
theorem single_create_failure_isolated (cfg : Config) (w : World)
    (vars : List EnvVar) (i : Nat)
    (hflags : ¬(cfg.gitlabURL = "" ∨ cfg.token = "" ∨ cfg.source = "" ∨ cfg.target = ""))
    (hlive : cfg.dryRun = false)
    (hget : GetVariables cfg.source w.getOutcome = (some vars, none))
    (hi : i < vars.length)
    (hfail : createFails (w.createOutcome i) = true)
    (hothers : ∀ j, j < vars.length → j ≠ i → createFails (w.createOutcome j) = false) :
    (runMain cfg w).createCalls.length = vars.length ∧
    (runMain cfg w).summary = some (vars.length - 1, vars.length) ∧
    (runMain cfg w).failLogs = [(vars.getD i EnvVar.zero).Key] ∧
    (runMain cfg w).exitCode = 0 := by
  have hsnd : (GetVariables cfg.source w.getOutcome).2 = none := by rw [hget]
  have hfst : (GetVariables cfg.source w.getOutcome).1.getD [] = vars := by
    rw [hget]
    rfl
  have hone := transferAll_one_fail cfg.target w.createOutcome vars 0 i (Nat.zero_le i)
    (by omega) hfail (fun j h1 h2 hne => hothers j (by omega) hne)
  simp only [Nat.sub_zero] at hone
  simp only [runMain, hflags, hsnd, hlive, hfst]
  exact ⟨by simp [transferAll_length], by simp [hone.1], by simp [hone.2], rfl⟩

/-- Witness for claim C4: two variables, the first creation call fails with
status 400 and the second succeeds. -/
theorem single_create_failure_isolated_witness :
    (runMain ⟨"https://gitlab.example.com", "tok", "group/a", "group/b", false, "out.json"⟩
        ⟨.response 200 (.arr [encodeEnvVar ⟨"env_var", "KEY_ONE", "v1", false, false, "*"⟩,
            encodeEnvVar ⟨"env_var", "KEY_TWO", "v2", true, false, "prod"⟩]),
          fun j => if j = 0 then .response 400 .null else .response 201 .null,
          true, "ts"⟩).createCalls.length = 2 ∧
    (runMain ⟨"https://gitlab.example.com", "tok", "group/a", "group/b", false, "out.json"⟩
        ⟨.response 200 (.arr [encodeEnvVar ⟨"env_var", "KEY_ONE", "v1", false, false, "*"⟩,
            encodeEnvVar ⟨"env_var", "KEY_TWO", "v2", true, false, "prod"⟩]),
          fun j => if j = 0 then .response 400 .null else .response 201 .null,
          true, "ts"⟩).summary = some (1, 2) ∧
    (runMain ⟨"https://gitlab.example.com", "tok", "group/a", "group/b", false, "out.json"⟩
        ⟨.response 200 (.arr [encodeEnvVar ⟨"env_var", "KEY_ONE", "v1", false, false, "*"⟩,
            encodeEnvVar ⟨"env_var", "KEY_TWO", "v2", true, false, "prod"⟩]),
          fun j => if j = 0 then .response 400 .null else .response 201 .null,
          true, "ts"⟩).failLogs = ["KEY_ONE"] ∧
    (runMain ⟨"https://gitlab.example.com", "tok", "group/a", "group/b", false, "out.json"⟩
        ⟨.response 200 (.arr [encodeEnvVar ⟨"env_var", "KEY_ONE", "v1", false, false, "*"⟩,
            encodeEnvVar ⟨"env_var", "KEY_TWO", "v2", true, false, "prod"⟩]),
          fun j => if j = 0 then .response 400 .null else .response 201 .null,
          true, "ts"⟩).exitCode = 0 :=
  single_create_failure_isolated _ _
    [⟨"env_var", "KEY_ONE", "v1", false, false, "*"⟩,
     ⟨"env_var", "KEY_TWO", "v2", true, false, "prod"⟩] 0
    (by decide) rfl (by decide) (by decide) (by decide) (by decide)

end EnvSync
